import Mathlib

/-!
# go-joern client: shallow embedding of `client.go`

The client owns a configuration, an HTTP client whose transport rewrites every
outgoing request, and a reference to a websocket connection that `Receive`
drains into a channel.

Everything outside `client.go` is an explicit parameter of the embedded
function that uses it: `http.Client.Do`, the network behind
`http.DefaultTransport`, the JSON decoder, the websocket dialer, the underlying
`Close` of the connection and the `Read` method of the connection.  The
redirect loop of `http.Client.Do` is given as `httpDo`, and two connections are
given for `Read`: one whose reads return whole buffers of the current frame
and one whose reads return what has arrived.  A Go panic (nil dereference, `make` with a
negative length, slice bounds) is an explicit result.
-/

namespace Joern

/-! ## Data model -/

/-- One byte of a Go string or byte slice. -/
abbrev Byte := UInt8

/-- Go byte slices, and Go strings seen as their bytes. -/
abbrev Bytes := List Byte

/-- The bytes Go stores for a string constant (its UTF-8 encoding). -/
def stringBytes (s : String) : Bytes := s.data.flatMap String.utf8EncodeChar

/-- Go `time.Duration`: a signed number of nanoseconds. -/
abbrev Duration := Int

/-- Go `time.Second`. -/
def Second : Duration := 1000000000

/-- Go `context.Context` as the loop observes it: `ctx k` tells whether
`ctx.Done()` is ready at the check that opens iteration `k`. -/
abbrev Context := Nat → Bool

/-- Go `context.Background()`: a context that is never cancelled. -/
def background : Context := fun _ => false

/-- The identity of a `*websocket.Conn` (the pointer stored in `Client.ws`). -/
abbrev ConnRef := Nat

/-- Go `error` values, by the place that creates them. -/
inductive Error where
  /-- `errors.New(text)` in `Send` and `Result`. -/
  | errorString (text : String)
  /-- An error of `json.Decoder.Decode`. -/
  | decode (text : String)
  /-- An error of `http.DefaultTransport.RoundTrip`. -/
  | transport (text : String)
  /-- The `*url.Error` in which `http.Client.Do` wraps an error: operation,
  URL and the error wrapped. -/
  | url (op url : String) (err : Error)
  /-- An error of the websocket package (`NewConfig`, `DialContext`, `Close`, `Read`). -/
  | websocket (text : String)
  deriving DecidableEq, Repr

/-- The part of `http.Client` that `NewClient` sets besides the transport. -/
structure HttpClient where
  Timeout : Duration
  deriving DecidableEq, Repr

/-- The `Client` struct; the defaults are the Go zero values. -/
structure Client where
  http : Option HttpClient := none
  ws : Option ConnRef := none
  baseURL : String := ""
  user : String := ""
  pass : String := ""
  bufferSize : Int := 0
  timeout : Duration := 0
  deriving DecidableEq, Repr

/-- Go `uuid.UUID`: an array of 16 bytes. -/
def UUID := { bs : Bytes // bs.length = 16 }

/-- The zero value of `uuid.UUID`. -/
def UUID.zero : UUID := ⟨List.replicate 16 0, by simp⟩

structure QueryRequest where
  Query : String
  deriving DecidableEq, Repr

structure QueryResponse where
  UUID : UUID

structure ResultResponse where
  Success : Bool := false
  Stdout : String := ""
  Stderr : String := ""
  deriving DecidableEq, Repr

/-- The type `Option` of the source: a function that updates the client. -/
abbrev ClientOption := Client → Client

def Connected : String := "connected"

def defaultTimeout : Duration := 3600 * Second

def defaultBufferSize : Int := 36

def defaultBaseURL : String := "localhost:8080"

/-! ## Construction and options -/

def WithBaseURL (baseURL : String) : ClientOption :=
  fun client => { client with baseURL := baseURL }

def WithBasicAuth (user pass : String) : ClientOption :=
  fun client => { client with user := user, pass := pass }

def WithBufferSize (n : Int) : ClientOption :=
  fun client => { client with bufferSize := n }

def WithTimeout (timeout : Duration) : ClientOption :=
  fun client => { client with timeout := timeout }

/-- The function `NewClient`: defaults, then the options in order, then the HTTP
client with the configured timeout.  The transport closure it installs is
`roundTripperFunc` below, which reads the client when a request is sent. -/
def NewClient (options : List ClientOption) : Client :=
  let c : Client :=
    { baseURL := defaultBaseURL, bufferSize := defaultBufferSize, timeout := defaultTimeout }
  let c := options.foldl (fun c option => option c) c
  { c with http := some { Timeout := c.timeout } }

/-! ## The transport closure -/

/-- Go `unicode.IsSpace`. -/
def IsSpace (r : Char) : Bool :=
  let n := r.toNat
  if n ≤ 0xFF then
    n = 0x09 || n = 0x0A || n = 0x0B || n = 0x0C || n = 0x0D || n = 0x20 || n = 0x85 || n = 0xA0
  else
    n = 0x1680 || (0x2000 ≤ n && n ≤ 0x200A) || n = 0x2028 || n = 0x2029 || n = 0x202F
      || n = 0x205F || n = 0x3000

/-- Go `strings.TrimSpace`: the string without its leading and trailing white
space. -/
def TrimSpace (s : String) : String :=
  ⟨((s.data.dropWhile IsSpace).reverse.dropWhile IsSpace).reverse⟩

/-- The value of the `Authorization` header. -/
inductive Authorization where
  /-- The header written by `Request.SetBasicAuth username password`. -/
  | basic (username password : String)
  deriving DecidableEq, Repr

structure URL where
  Scheme : String := ""
  Host : String := ""
  Path : String := ""
  deriving DecidableEq, Repr

/-- The fields of `http.Request` the client touches.  `Body` is the payload
handed to `json.Marshal`, `ctx` the context of the request. -/
structure Request where
  Method : String
  URL : URL
  Body : Option QueryRequest := none
  Authorization : Option Authorization := none
  ctx : Context := background

/-- The fields of `http.Response` the client and `http.Client.Do` read;
`Location` is the Location header, empty when the response has none. -/
structure Response where
  StatusCode : Int
  Status : String
  Location : String := ""
  Body : Bytes

/-- Go `Request.WithContext`. -/
def Request.WithContext (request : Request) (ctx : Context) : Request :=
  { request with ctx := ctx }

/-- Go `Request.SetBasicAuth`. -/
def Request.SetBasicAuth (request : Request) (username password : String) : Request :=
  { request with Authorization := some (.basic username password) }

/-- The request as the closure in `NewClient` leaves it before handing it to
`http.DefaultTransport`. -/
def outgoing (c : Client) (request : Request) : Request :=
  let request := { request with URL := { request.URL with Scheme := "http" } }
  let request := { request with URL := { request.URL with Host := c.baseURL } }
  if TrimSpace c.user ≠ "" ∧ TrimSpace c.pass ≠ "" then
    request.SetBasicAuth c.user c.pass
  else
    request

/-- Go `http.RoundTripper` as `http.Client.Do` sees it: the request as the
call leaves it (the closure of the client writes into it) and the result. -/
abbrev RoundTripper := Request → Request × Except Error Response

/-- The closure `roundTripperFunc(func(request) ...)` of `NewClient`;
`transport` is `http.DefaultTransport.RoundTrip`. -/
def roundTripperFunc (c : Client) (transport : Request → Except Error Response) :
    RoundTripper :=
  fun request => (outgoing c request, transport (outgoing c request))

/-- Go `http.NewRequest(method, path, body)` for the two constant targets of
the client: a relative URL with no scheme, no host and no header. -/
def NewRequest (method path : String) (body : Option QueryRequest) : Request :=
  { Method := method, URL := { Path := path }, Body := body }

/-! ## Send and Result -/

def StatusOK : Int := 200

/-- Go `http.Client.Do` as the client calls it: the HTTP client, its
transport, the request; the result is the response and the error, as in Go. -/
abbrev DoFunc := HttpClient → RoundTripper → Request → Option Response × Option Error

/-- The method `Client.Send`.  `Do` is `http.Client.Do`, called on the HTTP
client of `c` whose transport is the closure of `NewClient`; `transport` is the
network behind that closure; `decode` is
`json.NewDecoder(res.Body).Decode(&response)`: the value it leaves in
`response` and its error.  The result is `none` when the call panics (no HTTP
client, or a nil response with a nil error).  The two early returns of the
source, on an error of `json.Marshal` and of `http.NewRequest`, have no branch
here: marshalling a struct with one string field and building a request from
the constant method and path cannot fail. -/
def Client.Send (c : Client) (Do : DoFunc) (transport : Request → Except Error Response)
    (decode : Bytes → QueryResponse × Option String) (ctx : Context) (query : String) :
    Option (QueryResponse × Option Error) :=
  let pl : QueryRequest := { Query := query }
  let request := NewRequest "POST" "/query" (some pl)
  let request := request.WithContext ctx
  match c.http with
  | none => none
  | some http =>
    match Do http (roundTripperFunc c transport) request with
    | (_, some err) => some (⟨UUID.zero⟩, some err)
    | (none, none) => none
    | (some res, none) =>
      if res.StatusCode ≠ StatusOK then
        some (⟨UUID.zero⟩, some (.errorString res.Status))
      else
        match decode res.Body with
        | (response, some e) => some (response, some (.decode e))
        | (response, none) => some (response, none)

/-- The hexadecimal digit of a value below 16 (`hextable` of `encoding/hex`). -/
def hexDigit (n : Nat) : Byte :=
  (if n < 10 then 48 + n else 87 + n).toUInt8

/-- Go `hex.Encode`: two lower-case digits per byte. -/
def hexEncode (src : Bytes) : Bytes :=
  src.flatMap fun v => [hexDigit (v.toNat / 16), hexDigit (v.toNat % 16)]

/-- Go `UUID.String` of github.com/google/uuid (`encodeHex`): the form
xxxxxxxx-xxxx-xxxx-xxxx-xxxxxxxxxxxx. -/
def UUID.String (uuid : UUID) : Bytes :=
  let u := uuid.val
  hexEncode (u.take 4) ++ [45] ++ hexEncode ((u.drop 4).take 2) ++ [45]
    ++ hexEncode ((u.drop 6).take 2) ++ [45] ++ hexEncode ((u.drop 8).take 2) ++ [45]
    ++ hexEncode (u.drop 10)

/-- The string form of a UUID as text (its bytes are ASCII). -/
def uuidText (uuid : UUID) : String :=
  ⟨uuid.String.map fun b => Char.ofNat b.toNat⟩

/-- The method `Client.Result`, with the parameters of `Client.Send`.  The
early return on an error of `http.NewRequest` has no branch: the path is the
constant prefix followed by hexadecimal digits and dashes. -/
def Client.Result (c : Client) (Do : DoFunc) (transport : Request → Except Error Response)
    (decode : Bytes → ResultResponse × Option String) (ctx : Context) (uuid : UUID) :
    Option (ResultResponse × Option Error) :=
  let request := NewRequest "GET" ("/result/" ++ uuidText uuid) none
  let request := request.WithContext ctx
  match c.http with
  | none => none
  | some http =>
    match Do http (roundTripperFunc c transport) request with
    | (_, some err) => some ({}, some err)
    | (none, none) => none
    | (some res, none) =>
      if res.StatusCode ≠ StatusOK then
        some ({}, some (.errorString res.Status))
      else
        match decode res.Body with
        | (result, some e) => some (result, some (.decode e))
        | (result, none) => some (result, none)

/-! ## The HTTP client of the Go library -/

/-- What `http.Client.Do` takes from `net/url` and from the header rules of
`net/http`. -/
structure HTTPLib where
  /-- Go `URL.Parse`: a reference resolved against a URL, or the parse error. -/
  Parse : URL → String → Except String URL
  /-- Go `URL.String`, as `Do` prints a URL into an error. -/
  urlString : URL → String
  /-- Go `shouldCopyHeaderOnRedirect` for the Authorization header, from the
  URL of the previous hop to the URL of the next one. -/
  copyAuthorization : URL → URL → Bool

/-- Go `urlErrorOp`: the method with its first letter kept and the rest in
lower case. -/
def urlErrorOp (method : String) : String :=
  if method = "" then "Get" else method.take 1 ++ (method.drop 1).toLower

/-- Go `redirectBehavior`: the method of the next hop, whether the response is
followed, and whether the body is sent again.  A request of the client can
always replay its body (`http.NewRequest` sets `GetBody` for a bytes buffer, and
a request without body has length zero), so 307 and 308 are followed. -/
def redirectBehavior (reqMethod : String) (resp : Response) : String × Bool × Bool :=
  if resp.StatusCode = 301 ∨ resp.StatusCode = 302 ∨ resp.StatusCode = 303 then
    (if reqMethod ≠ "GET" ∧ reqMethod ≠ "HEAD" then "GET" else reqMethod, true, false)
  else if resp.StatusCode = 307 ∨ resp.StatusCode = 308 then
    (reqMethod, true, true)
  else
    ("", false, false)

/-- The loop of Go `http.Client.do` with the default redirect policy: `ireq` is
the first request, `req` the request of this hop, and `remaining` the number of
further hops the policy allows (it stops the eleventh request). -/
def httpDoLoop (L : HTTPLib) (rt : RoundTripper) (ireq : Request) :
    Nat → Request → Option Response × Option Error
  | remaining, req =>
    match rt req with
    | (req, .error err) =>
      (none, some (.url (urlErrorOp ireq.Method) (L.urlString req.URL) err))
    | (req, .ok resp) =>
      match redirectBehavior req.Method resp with
      | (_, false, _) => (some resp, none)
      | (redirectMethod, true, includeBody) =>
        if resp.Location = "" then (some resp, none)
        else
          match L.Parse req.URL resp.Location with
          | .error e =>
            (none, some (.url (urlErrorOp ireq.Method) (L.urlString req.URL)
              (.errorString ("failed to parse Location header \"" ++ resp.Location
                ++ "\": " ++ e))))
          | .ok u =>
            match remaining with
            | 0 =>
              (some resp, some (.url (urlErrorOp ireq.Method) resp.Location
                (.errorString "stopped after 10 redirects")))
            | remaining + 1 =>
              httpDoLoop L rt ireq remaining
                { Method := redirectMethod, URL := u,
                  Body := if includeBody then ireq.Body else none,
                  Authorization :=
                    if L.copyAuthorization req.URL u then ireq.Authorization else none,
                  ctx := ireq.ctx }

/-- Go `http.Client.Do` with the default redirect policy (no `CheckRedirect`,
no cookie jar).  Deadlines act through the errors of the transport. -/
def httpDo (L : HTTPLib) : DoFunc :=
  fun _ rt req => httpDoLoop L rt req 9 req

/-- Whether `http.Client.Do` follows a response instead of handing it back: a
status 301, 302, 303, 307 or 308 with a Location header. -/
def followed (resp : Response) : Bool :=
  (redirectBehavior "GET" resp).2.1 && resp.Location != ""

/-! ## Open and Close -/

/-- The method `Client.Open`.  `newConfig` is `websocket.NewConfig` on the
location `"ws://"+baseURL+"/connect"` (given twice in the source, as location
and as origin), `dial` is `config.DialContext(ctx)`.
The result is the returned error and the client afterwards. -/
def Client.Open (c : Client) (newConfig : String → Except Error String)
    (dial : String → Context → Except Error ConnRef) (ctx : Context) : Option Error × Client :=
  match newConfig ("ws://" ++ c.baseURL ++ "/connect") with
  | .error err => (some err, c)
  | .ok config =>
    match dial config ctx with
    | .error err => (some err, { c with ws := none })
    | .ok conn => (none, { c with ws := some conn })

/-- The method `Client.Close`.  `wsClose` is the `Close` method of the
connection.  The result is `none` when the call panics (nil connection). -/
def Client.Close (c : Client) (wsClose : ConnRef → Option Error) :
    Option (Option Error × Client) :=
  match c.ws with
  | none => none
  | some ws =>
    match wsClose ws with
    | some err => some (some err, c)
    | none => some (none, { c with ws := none })

/-! ## Receive -/

/-- What one call `ws.Read(buffer)` returned: the bytes it stored at the front
of the buffer (`read` is their number) and the error. -/
structure ReadOutcome where
  data : Bytes
  err : Option Error := none
  deriving DecidableEq, Repr

/-- The connection side of `Receive`: `Read ws n s` is the call `ws.Read` with
a buffer of `n` bytes in the network state `s`; `none` means that the call
never returns. -/
structure WebSocket (σ : Type) where
  Read : ConnRef → Nat → σ → Option (ReadOutcome × σ)

/-- How a run of `Receive` ended. -/
inductive Exit where
  /-- One of the two `return` statements was reached. -/
  | returned
  /-- The read never returned. -/
  | blocked
  /-- A run-time panic. -/
  | fault
  /-- The loop was still running when the step budget ran out. -/
  | running
  deriving DecidableEq, Repr

/-- What a run of `Receive` did: the messages sent on `ch` in order, the number
of reads it started, and how it ended. -/
structure Trace where
  forwarded : List Bytes
  reads : Nat
  exit : Exit
  deriving DecidableEq, Repr

/-- The loop of `Client.Receive` from iteration `i` on, for at most `fuel`
iterations.  The consumer of `ch` takes every message. -/
def Client.ReceiveFrom {σ : Type} (W : WebSocket σ) (c : Client) (ctx : Context) :
    Nat → Nat → σ → Trace
  | 0, i, _ => ⟨[], i, .running⟩
  | fuel + 1, i, s =>
    if ctx i then ⟨[], i, .returned⟩
    else if c.bufferSize < 0 then ⟨[], i, .fault⟩
    else
      match c.ws with
      | none => ⟨[], i, .fault⟩
      | some ws =>
        match W.Read ws c.bufferSize.toNat s with
        | none => ⟨[], i + 1, .blocked⟩
        | some (out, s') =>
          if out.err.isSome then ⟨[], i + 1, .returned⟩
          else if out.data.length > 0 then
            if out.data.length > c.bufferSize.toNat then ⟨[], i + 1, .fault⟩
            else
              let t := Client.ReceiveFrom W c ctx fuel (i + 1) s'
              { t with forwarded := out.data :: t.forwarded }
          else Client.ReceiveFrom W c ctx fuel (i + 1) s'

/-- The method `Client.Receive`. -/
def Client.Receive {σ : Type} (W : WebSocket σ) (c : Client) (ctx : Context) (fuel : Nat)
    (s : σ) : Trace :=
  c.ReceiveFrom W ctx fuel 0 s

/-- A connection whose reads are given in advance, one outcome per call; after
the last one the read never returns. -/
def scripted : WebSocket (List ReadOutcome) where
  Read := fun _ _ s =>
    match s with
    | [] => none
    | o :: rest => some (o, rest)

/-- The frames the server has pushed and the client has not read yet, the
first one being the rest of the frame under the reader, and whether the
connection is closed behind them. -/
structure Frames where
  pending : List Bytes
  closed : Bool
  deriving DecidableEq, Repr

/-- The read of a connection on which every read returns the next
`min n remaining` bytes of the current frame (the condition under which C1 and
the amended C2 speak); a finished frame is left behind; with no frame left the
read fails on a closed connection and waits forever on an open one. -/
def Frames.read (n : Nat) (closed : Bool) : List Bytes → Option (ReadOutcome × Frames)
  | [] => if closed then some (⟨[], some (.websocket "EOF")⟩, ⟨[], closed⟩) else none
  | f :: rest =>
    if f.isEmpty then Frames.read n closed rest
    else some (⟨f.take n, none⟩, ⟨f.drop n :: rest, closed⟩)

/-- The frame connection as a `WebSocket`. -/
def framed : WebSocket Frames where
  Read := fun _ n s => Frames.read n s.closed s.pending

/-- The frames the server has pushed, each as the pieces in which the
transport hands its payload to the reader, and whether the connection is closed
behind them. -/
structure Segments where
  pending : List (List Bytes)
  closed : Bool
  deriving DecidableEq, Repr

/-- The read of a connection that returns what has arrived: the next
`min n remaining` bytes of the current piece of the current frame; a finished
frame is left behind; with no frame left the read fails on a closed connection
and waits forever on an open one. -/
def Segments.read (n : Nat) (closed : Bool) :
    List (List Bytes) → Option (ReadOutcome × Segments)
  | [] => if closed then some (⟨[], some (.websocket "EOF")⟩, ⟨[], closed⟩) else none
  | [] :: rest => Segments.read n closed rest
  | (p :: ps) :: rest =>
    some (⟨p.take n, none⟩,
      ⟨(if (p.drop n).isEmpty then ps else p.drop n :: ps) :: rest, closed⟩)

/-- The connection that returns what has arrived, as a `WebSocket`. -/
def segmented : WebSocket Segments where
  Read := fun _ n s => Segments.read n s.closed s.pending

/-! ## Specification vocabulary -/

/-- The four options of the package, as data. -/
inductive Setting where
  | baseURL (baseURL : String)
  | basicAuth (user pass : String)
  | bufferSize (n : Int)
  | timeout (timeout : Duration)
  deriving DecidableEq, Repr

/-- The option a setting stands for. -/
def Setting.toOption : Setting → ClientOption
  | .baseURL b => WithBaseURL b
  | .basicAuth u p => WithBasicAuth u p
  | .bufferSize n => WithBufferSize n
  | .timeout t => WithTimeout t

/-- The value of the last setting of a list that `pick` selects. -/
def lastSetting {α : Type} (pick : Setting → Option α) (l : List Setting) : Option α :=
  l.reverse.findSome? pick

def pickBaseURL : Setting → Option String
  | .baseURL b => some b
  | _ => none

def pickBasicAuth : Setting → Option (String × String)
  | .basicAuth u p => some (u, p)
  | _ => none

def pickBufferSize : Setting → Option Int
  | .bufferSize n => some n
  | _ => none

def pickTimeout : Setting → Option Duration
  | .timeout t => some t
  | _ => none

/-- A string that is empty or holds white space only. -/
def blank (s : String) : Bool := s.data.all IsSpace

/-- A websocket configuration that is always accepted. -/
def configOK : String → Except Error String := fun location => .ok location

/-- A dialer that always connects, to the connection `conn`. -/
def dialOK (conn : ConnRef) : String → Context → Except Error ConnRef :=
  fun _ _ => .ok conn

/-- A connection whose `Close` succeeds. -/
def closeOK : ConnRef → Option Error := fun _ => none

/-- A library whose URLs take the reference as their path, print as scheme,
host and path, and copy headers to every hop. -/
def plainLib : HTTPLib where
  Parse := fun base ref => .ok { base with Path := ref }
  urlString := fun u => u.Scheme ++ "://" ++ u.Host ++ u.Path
  copyAuthorization := fun _ _ => true

/-- A network that answers a request for `/query` with the status 302 and the
location `/v2/query`, and every other request with the status 200. -/
def movedQuery : Request → Except Error Response :=
  fun request =>
    if request.URL.Path = "/query" then
      .ok { StatusCode := 302, Status := "302 Found", Location := "/v2/query", Body := [] }
    else
      .ok { StatusCode := 200, Status := "200 OK", Body := [123, 125] }

/-- A query decoder that accepts every body. -/
def acceptingQueryDecoder : Bytes → QueryResponse × Option String :=
  fun _ => (⟨UUID.zero⟩, none)

/-- A network that answers every request with the status 404 and a body that
is no JSON. -/
def notFound : Request → Except Error Response :=
  fun _ => .ok { StatusCode := 404, Status := "404 Not Found", Body := [60, 104, 49, 62] }

/-- A network that answers every request with the status 200 and an empty body. -/
def emptyOK : Request → Except Error Response :=
  fun _ => .ok { StatusCode := 200, Status := "200 OK", Body := [] }

/-- A query decoder that fails on every body. -/
def failingQueryDecoder : Bytes → QueryResponse × Option String :=
  fun _ => (⟨UUID.zero⟩, some "EOF")

/-- A result decoder that fails on every body. -/
def failingResultDecoder : Bytes → ResultResponse × Option String :=
  fun _ => ({}, some "EOF")

/-- The client built from the options once `Open` has connected it to `conn`. -/
def openedClient (options : List ClientOption) (conn : ConnRef) : Client :=
  ((NewClient options).Open configOK (dialOK conn) background).2

/-- The reads of a script that precede its first failing read. -/
def successful (script : List ReadOutcome) : List ReadOutcome :=
  script.takeWhile fun o => o.err.isNone

/-- The byte contents of the non-empty reads that precede the first failing
read of a script, in read order. -/
def messages (script : List ReadOutcome) : List Bytes :=
  ((successful script).map fun o => o.data).filter fun d => decide (0 < d.length)

/-- How a run on a script ends: with a return at its first failing read, or in
a read that never returns when no read of the script fails. -/
def scriptExit (script : List ReadOutcome) : Exit :=
  if (successful script).length < script.length then .returned else .blocked

/-- A read that returns zero bytes and no error. -/
def emptyRead : ReadOutcome := { data := [], err := none }

/-- A script for the examples: the acknowledgment, a zero-byte read, two bytes,
a failing read, and a read that is never reached. -/
def sampleScript : List ReadOutcome :=
  [⟨stringBytes Connected, none⟩, emptyRead, ⟨[1, 2], none⟩,
    ⟨[], some (.websocket "use of closed network connection")⟩, ⟨[9], none⟩]

/-- The scripts obtained from a script by inserting zero-byte error-free reads:
`Padded s t` holds when `t` is `s` with such reads inserted anywhere. -/
inductive Padded : List ReadOutcome → List ReadOutcome → Prop where
  | nil : Padded [] []
  | keep (o : ReadOutcome) {s t : List ReadOutcome} : Padded s t → Padded (o :: s) (o :: t)
  | pad {s t : List ReadOutcome} : Padded s t → Padded s (emptyRead :: t)

/-- A bound on the number of reads that drain the frames: their bytes and one
more read per frame. -/
def weight (pending : List Bytes) : Nat :=
  (pending.map fun f => f.length + 1).sum

/-- How a run on a frame connection ends once the frames are drained. -/
def framesExit (closed : Bool) : Exit :=
  if closed then .returned else .blocked

/-! ## Construction -/

theorem foldl_baseURL (l : List Setting) (c : Client) :
    ((l.map Setting.toOption).foldl (fun c option => option c) c).baseURL
      = (lastSetting pickBaseURL l).getD c.baseURL := by
  induction l generalizing c with
  | nil => rfl
  | cons o l ih =>
    simp only [List.map_cons, List.foldl_cons, ih, lastSetting, List.reverse_cons,
      List.findSome?_append]
    cases h : List.findSome? pickBaseURL l.reverse with
    | some v => simp
    | none => cases o <;> simp [pickBaseURL, Setting.toOption, WithBaseURL, WithBasicAuth,
        WithBufferSize, WithTimeout]

theorem foldl_basicAuth (l : List Setting) (c : Client) :
    (((l.map Setting.toOption).foldl (fun c option => option c) c).user,
      ((l.map Setting.toOption).foldl (fun c option => option c) c).pass)
      = (lastSetting pickBasicAuth l).getD (c.user, c.pass) := by
  induction l generalizing c with
  | nil => rfl
  | cons o l ih =>
    simp only [List.map_cons, List.foldl_cons, ih, lastSetting, List.reverse_cons,
      List.findSome?_append]
    cases h : List.findSome? pickBasicAuth l.reverse with
    | some v => simp
    | none => cases o <;> simp [pickBasicAuth, Setting.toOption, WithBaseURL, WithBasicAuth,
        WithBufferSize, WithTimeout]

theorem foldl_bufferSize (l : List Setting) (c : Client) :
    ((l.map Setting.toOption).foldl (fun c option => option c) c).bufferSize
      = (lastSetting pickBufferSize l).getD c.bufferSize := by
  induction l generalizing c with
  | nil => rfl
  | cons o l ih =>
    simp only [List.map_cons, List.foldl_cons, ih, lastSetting, List.reverse_cons,
      List.findSome?_append]
    cases h : List.findSome? pickBufferSize l.reverse with
    | some v => simp
    | none => cases o <;> simp [pickBufferSize, Setting.toOption, WithBaseURL, WithBasicAuth,
        WithBufferSize, WithTimeout]

theorem foldl_timeout (l : List Setting) (c : Client) :
    ((l.map Setting.toOption).foldl (fun c option => option c) c).timeout
      = (lastSetting pickTimeout l).getD c.timeout := by
  induction l generalizing c with
  | nil => rfl
  | cons o l ih =>
    simp only [List.map_cons, List.foldl_cons, ih, lastSetting, List.reverse_cons,
      List.findSome?_append]
    cases h : List.findSome? pickTimeout l.reverse with
    | some v => simp
    | none => cases o <;> simp [pickTimeout, Setting.toOption, WithBaseURL, WithBasicAuth,
        WithBufferSize, WithTimeout]

theorem foldl_ws (l : List Setting) (c : Client) :
    ((l.map Setting.toOption).foldl (fun c option => option c) c).ws = c.ws := by
  induction l generalizing c with
  | nil => rfl
  | cons o l ih =>
    simp only [List.map_cons, List.foldl_cons, ih]
    cases o <;> rfl

/-- C6: `NewClient` with no options yields base address "localhost:8080",
buffer size 36, timeout 3600 seconds, empty credentials and no connection; and
for every list of the four options each field is the value of the last option
that targets it, or its default when none does, the timeout of the HTTP client
being the configured timeout. -/
theorem newClient_defaults_and_options (l : List Setting) :
    NewClient [] =
      { http := some { Timeout := 3600 * 1000000000 }, ws := none,
        baseURL := "localhost:8080", user := "", pass := "", bufferSize := 36,
        timeout := 3600 * 1000000000 }
    ∧ (NewClient (l.map Setting.toOption)).baseURL
        = (lastSetting pickBaseURL l).getD defaultBaseURL
    ∧ ((NewClient (l.map Setting.toOption)).user, (NewClient (l.map Setting.toOption)).pass)
        = (lastSetting pickBasicAuth l).getD ("", "")
    ∧ (NewClient (l.map Setting.toOption)).bufferSize
        = (lastSetting pickBufferSize l).getD defaultBufferSize
    ∧ (NewClient (l.map Setting.toOption)).timeout
        = (lastSetting pickTimeout l).getD defaultTimeout
    ∧ (NewClient (l.map Setting.toOption)).http
        = some { Timeout := (NewClient (l.map Setting.toOption)).timeout }
    ∧ (NewClient (l.map Setting.toOption)).ws = none := by
  refine ⟨by decide, ?_, ?_, ?_, ?_, rfl, ?_⟩
  · exact foldl_baseURL l _
  · exact foldl_basicAuth l _
  · exact foldl_bufferSize l _
  · exact foldl_timeout l _
  · exact foldl_ws l _

/-! ## The transport closure -/

theorem dropWhile_all {α : Type} (p : α → Bool) (d : List α) :
    (∀ x ∈ d.dropWhile p, p x = true) ↔ ∀ x ∈ d, p x = true := by
  induction d with
  | nil => simp
  | cons a d ih =>
    by_cases h : p a = true
    · simp [List.dropWhile_cons, h, ih]
    · simp [List.dropWhile_cons, h]

theorem trimSpace_eq_empty_iff (s : String) : TrimSpace s = "" ↔ blank s = true := by
  have h : TrimSpace s = "" ↔
      ((s.data.dropWhile IsSpace).reverse.dropWhile IsSpace).reverse = [] := by
    unfold TrimSpace
    constructor
    · intro h
      exact congrArg String.data h
    · intro h
      rw [h]
  rw [h, List.reverse_eq_nil_iff, List.dropWhile_eq_nil_iff]
  simp only [List.mem_reverse, blank, List.all_eq_true]
  exact dropWhile_all IsSpace s.data

/-- C5: the transport sets the scheme to http and the host to the configured
base address on every request and leaves method, path and body alone; it
writes the basic credentials, with the configured user name and password as
given, exactly when neither of them is blank (empty after trimming, that is
empty or white space only), and otherwise leaves the Authorization header as
it was, which is absent on the requests the client builds. -/
theorem basic_auth_iff_both_nonblank (c : Client) (request : Request) (method path : String)
    (body : Option QueryRequest) (s : String) :
    (TrimSpace s = "" ↔ blank s = true)
    ∧ (outgoing c request).Authorization
        = (if blank c.user || blank c.pass then request.Authorization
           else some (.basic c.user c.pass))
    ∧ (NewRequest method path body).Authorization = none
    ∧ ((outgoing c (NewRequest method path body)).Authorization
          = some (.basic c.user c.pass)
        ↔ TrimSpace c.user ≠ "" ∧ TrimSpace c.pass ≠ "")
    ∧ (outgoing c request).URL.Scheme = "http"
    ∧ (outgoing c request).URL.Host = c.baseURL
    ∧ (outgoing c request).URL.Path = request.URL.Path
    ∧ (outgoing c request).Method = request.Method
    ∧ (outgoing c request).Body = request.Body := by
  have hu := trimSpace_eq_empty_iff c.user
  have hp := trimSpace_eq_empty_iff c.pass
  refine ⟨trimSpace_eq_empty_iff s, ?_, rfl, ?_, ?_, ?_, ?_, ?_, ?_⟩
  · unfold outgoing
    by_cases h1 : blank c.user = true <;> by_cases h2 : blank c.pass = true <;>
      simp [hu, hp, h1, h2, Request.SetBasicAuth]
  · unfold outgoing
    by_cases h1 : blank c.user = true <;> by_cases h2 : blank c.pass = true <;>
      simp [hu, hp, h1, h2, Request.SetBasicAuth, NewRequest]
  all_goals
    unfold outgoing
    split <;> rfl

/-! ## Send and Result -/

theorem redirectBehavior_follow (m1 m2 : String) (resp : Response) :
    (redirectBehavior m1 resp).2.1 = (redirectBehavior m2 resp).2.1 := by
  unfold redirectBehavior
  split
  · rfl
  · split <;> rfl

/-- A response that is not followed is what `httpDo` hands back. -/
theorem httpDo_direct (L : HTTPLib) (h : HttpClient) (rt : RoundTripper) (req req2 : Request)
    (res : Response) (hrt : rt req = (req2, .ok res)) (hf : followed res = false) :
    httpDo L h rt req = (some res, none) := by
  have hsame := redirectBehavior_follow req2.Method "GET" res
  unfold httpDo httpDoLoop
  simp only [hrt]
  rcases hb : redirectBehavior req2.Method res with ⟨m, follow, body⟩
  rw [hb] at hsame
  simp only at hsame
  cases follow with
  | false => rfl
  | true =>
    have hloc : res.Location = "" := by
      simpa [followed, ← hsame] using hf
    simp [hloc]

/-- C3 (as amended): for `Send` and for `Result`, whenever `http.Client.Do`
hands back a response without error (the last response of the exchange, after
the redirects it follows), the call returns the error made from the status text
of that response, with the zero value and without running the decoder, if its
status code is not 200, and otherwise returns what the decoder produced, whose
error is then the only possible one; and with the `Do` of the Go library every
response of the server that `Do` does not follow as a redirect is handed back,
so that a non-200 status of the server that is not such a redirect yields the
status error. -/
theorem status_checked_before_decode (c : Client) (h : HttpClient) (Do : DoFunc)
    (L : HTTPLib) (transport : Request → Except Error Response)
    (decodeQ : Bytes → QueryResponse × Option String)
    (decodeR : Bytes → ResultResponse × Option String)
    (ctx : Context) (query : String) (uuid : UUID)
    (hc : c.http = some h) :
    (∀ res : Response,
        Do h (roundTripperFunc c transport)
          ((NewRequest "POST" "/query" (some ⟨query⟩)).WithContext ctx) = (some res, none) →
        c.Send Do transport decodeQ ctx query
          = some (if res.StatusCode ≠ 200 then (⟨UUID.zero⟩, some (.errorString res.Status))
                  else ((decodeQ res.Body).1, (decodeQ res.Body).2.map Error.decode)))
    ∧ (∀ res : Response,
        Do h (roundTripperFunc c transport)
          ((NewRequest "GET" ("/result/" ++ uuidText uuid) none).WithContext ctx)
          = (some res, none) →
        c.Result Do transport decodeR ctx uuid
          = some (if res.StatusCode ≠ 200 then ({}, some (.errorString res.Status))
                  else ((decodeR res.Body).1, (decodeR res.Body).2.map Error.decode)))
    ∧ (∀ res : Response,
        transport (outgoing c ((NewRequest "POST" "/query" (some ⟨query⟩)).WithContext ctx))
          = .ok res →
        followed res = false →
        c.Send (httpDo L) transport decodeQ ctx query
          = some (if res.StatusCode ≠ 200 then (⟨UUID.zero⟩, some (.errorString res.Status))
                  else ((decodeQ res.Body).1, (decodeQ res.Body).2.map Error.decode)))
    ∧ (∀ res : Response,
        transport (outgoing c
          ((NewRequest "GET" ("/result/" ++ uuidText uuid) none).WithContext ctx)) = .ok res →
        followed res = false →
        c.Result (httpDo L) transport decodeR ctx uuid
          = some (if res.StatusCode ≠ 200 then ({}, some (.errorString res.Status))
                  else ((decodeR res.Body).1, (decodeR res.Body).2.map Error.decode))) := by
  have hsend : ∀ (D : DoFunc) (res : Response),
      D h (roundTripperFunc c transport)
        ((NewRequest "POST" "/query" (some ⟨query⟩)).WithContext ctx) = (some res, none) →
      c.Send D transport decodeQ ctx query
        = some (if res.StatusCode ≠ 200 then (⟨UUID.zero⟩, some (.errorString res.Status))
                else ((decodeQ res.Body).1, (decodeQ res.Body).2.map Error.decode)) := by
    intro D res hdo
    simp only [Client.Send, hc, hdo, StatusOK]
    split
    · rfl
    · rcases hd : decodeQ res.Body with ⟨r, _ | e⟩ <;> simp
  have hresult : ∀ (D : DoFunc) (res : Response),
      D h (roundTripperFunc c transport)
        ((NewRequest "GET" ("/result/" ++ uuidText uuid) none).WithContext ctx)
        = (some res, none) →
      c.Result D transport decodeR ctx uuid
        = some (if res.StatusCode ≠ 200 then ({}, some (.errorString res.Status))
                else ((decodeR res.Body).1, (decodeR res.Body).2.map Error.decode)) := by
    intro D res hdo
    simp only [Client.Result, hc, hdo, StatusOK]
    split
    · rfl
    · rcases hd : decodeR res.Body with ⟨r, _ | e⟩ <;> simp
  refine ⟨hsend Do, hresult Do, ?_, ?_⟩
  · intro res htr hf
    exact hsend (httpDo L) res
      (httpDo_direct L h _ _ _ res (by unfold roundTripperFunc; rw [htr]) hf)
  · intro res htr hf
    exact hresult (httpDo L) res
      (httpDo_direct L h _ _ _ res (by unfold roundTripperFunc; rw [htr]) hf)

theorem status_checked_before_decode_witness :
    (NewClient []).http = some ⟨defaultTimeout⟩
    ∧ (NewClient []).Send (httpDo plainLib) notFound failingQueryDecoder background "help"
        = some (⟨UUID.zero⟩, some (.errorString "404 Not Found"))
    ∧ (NewClient []).Result (httpDo plainLib) notFound failingResultDecoder background
          UUID.zero
        = some ({}, some (.errorString "404 Not Found"))
    ∧ (NewClient []).Send (httpDo plainLib) emptyOK failingQueryDecoder background "help"
        = some (⟨UUID.zero⟩, some (.decode "EOF"))
    ∧ (NewClient []).Result (httpDo plainLib) emptyOK failingResultDecoder background
          UUID.zero
        = some ({}, some (.decode "EOF")) :=
  have h404 := status_checked_before_decode (NewClient []) ⟨defaultTimeout⟩ (httpDo plainLib)
    plainLib notFound failingQueryDecoder failingResultDecoder background "help" UUID.zero rfl
  have h200 := status_checked_before_decode (NewClient []) ⟨defaultTimeout⟩ (httpDo plainLib)
    plainLib emptyOK failingQueryDecoder failingResultDecoder background "help" UUID.zero rfl
  ⟨rfl,
    h404.2.2.1 { StatusCode := 404, Status := "404 Not Found", Body := [60, 104, 49, 62] }
      rfl (by decide),
    h404.2.2.2 { StatusCode := 404, Status := "404 Not Found", Body := [60, 104, 49, 62] }
      rfl (by decide),
    h200.2.2.1 { StatusCode := 200, Status := "200 OK", Body := [] } rfl (by decide),
    h200.2.2.2 { StatusCode := 200, Status := "200 OK", Body := [] } rfl (by decide)⟩

/-- C3 (as stated) fails on a redirect: the server answers the POST of `Send`
with the status 302 and a Location, `http.Client.Do` follows it, the next
answer has the status 200, and `Send` returns without any error, not with the
error of the status text "302 Found". -/
theorem send_follows_redirect :
    ((movedQuery (outgoing (NewClient [])
        ((NewRequest "POST" "/query" (some ⟨"help"⟩)).WithContext background))).toOption.map
        fun res => (res.StatusCode, res.Status)) = some (302, "302 Found")
    ∧ (((NewClient []).Send (httpDo plainLib) movedQuery acceptingQueryDecoder background
        "help").map Prod.snd) = some none
    ∧ ¬ (((NewClient []).Send (httpDo plainLib) movedQuery acceptingQueryDecoder background
        "help").map Prod.snd) = some (some (.errorString "302 Found")) := by
  refine ⟨by decide, by decide, by decide⟩

/-! ## Close -/

/-- C7: on a client that holds a connection, `Close` returns the result of the
underlying close; the connection reference is cleared when that result is no
error and is the same connection otherwise; every configuration field and the
HTTP client are unchanged. -/
theorem close_atomic (c : Client) (ws : ConnRef) (wsClose : ConnRef → Option Error)
    (hws : c.ws = some ws) :
    ∃ c2 : Client, c.Close wsClose = some (wsClose ws, c2)
      ∧ c2.ws = (if wsClose ws = none then none else some ws)
      ∧ c2.baseURL = c.baseURL ∧ c2.user = c.user ∧ c2.pass = c.pass
      ∧ c2.bufferSize = c.bufferSize ∧ c2.timeout = c.timeout ∧ c2.http = c.http := by
  cases hcl : wsClose ws with
  | none =>
    refine ⟨{ c with ws := none }, ?_, by simp, rfl, rfl, rfl, rfl, rfl, rfl⟩
    simp [Client.Close, hws, hcl]
  | some e =>
    refine ⟨c, ?_, by simp [hws], rfl, rfl, rfl, rfl, rfl, rfl⟩
    simp [Client.Close, hws, hcl]

theorem close_atomic_witness :
    (openedClient [] 1).ws = some 1
    ∧ (∃ c2 : Client, (openedClient [] 1).Close closeOK = some (none, c2)
        ∧ c2.ws = none ∧ c2.bufferSize = 36 ∧ c2.baseURL = "localhost:8080")
    ∧ (∃ c2 : Client, (openedClient [] 1).Close (fun _ => some (.websocket "broken pipe"))
          = some (some (.websocket "broken pipe"), c2)
        ∧ c2.ws = some 1 ∧ c2.bufferSize = 36 ∧ c2.baseURL = "localhost:8080") := by
  refine ⟨rfl, ?_, ?_⟩
  · obtain ⟨c2, h1, h2, h3, _, _, h6, _, _⟩ := close_atomic (openedClient [] 1) 1 closeOK rfl
    exact ⟨c2, h1, h2, h6, h3⟩
  · obtain ⟨c2, h1, h2, h3, _, _, h6, _, _⟩ := close_atomic (openedClient [] 1) 1
      (fun _ => some (.websocket "broken pipe")) rfl
    exact ⟨c2, h1, h2, h6, h3⟩

/-! ## Receive: general facts -/

theorem receiveFrom_zero {σ : Type} (W : WebSocket σ) (c : Client) (ctx : Context) (i : Nat)
    (s : σ) : c.ReceiveFrom W ctx 0 i s = ⟨[], i, .running⟩ := rfl

theorem receiveFrom_done {σ : Type} (W : WebSocket σ) (c : Client) (ctx : Context)
    (fuel i : Nat) (s : σ) (h : ctx i = true) :
    c.ReceiveFrom W ctx (fuel + 1) i s = ⟨[], i, .returned⟩ := by
  simp [Client.ReceiveFrom, h]

theorem receiveFrom_nil_ws {σ : Type} (W : WebSocket σ) (c : Client) (ctx : Context)
    (fuel i : Nat) (s : σ) (h : ctx i = false) (hws : c.ws = none) :
    c.ReceiveFrom W ctx (fuel + 1) i s = ⟨[], i, .fault⟩ := by
  simp [Client.ReceiveFrom, h, hws]

theorem receiveFrom_blocked {σ : Type} (W : WebSocket σ) (c : Client) (ctx : Context)
    (fuel i : Nat) (s : σ) (ws : ConnRef) (h : ctx i = false) (hws : c.ws = some ws)
    (hbuf : 0 ≤ c.bufferSize) (hread : W.Read ws c.bufferSize.toNat s = none) :
    c.ReceiveFrom W ctx (fuel + 1) i s = ⟨[], i + 1, .blocked⟩ := by
  simp [Client.ReceiveFrom, h, hws, hread, not_lt.mpr hbuf]

theorem receiveFrom_error {σ : Type} (W : WebSocket σ) (c : Client) (ctx : Context)
    (fuel i : Nat) (s s2 : σ) (ws : ConnRef) (out : ReadOutcome) (h : ctx i = false)
    (hws : c.ws = some ws) (hbuf : 0 ≤ c.bufferSize)
    (hread : W.Read ws c.bufferSize.toNat s = some (out, s2)) (herr : out.err.isSome = true) :
    c.ReceiveFrom W ctx (fuel + 1) i s = ⟨[], i + 1, .returned⟩ := by
  simp [Client.ReceiveFrom, h, hws, hread, not_lt.mpr hbuf, herr]

theorem receiveFrom_empty {σ : Type} (W : WebSocket σ) (c : Client) (ctx : Context)
    (fuel i : Nat) (s s2 : σ) (ws : ConnRef) (out : ReadOutcome) (h : ctx i = false)
    (hws : c.ws = some ws) (hbuf : 0 ≤ c.bufferSize)
    (hread : W.Read ws c.bufferSize.toNat s = some (out, s2)) (herr : out.err = none)
    (hlen : out.data.length = 0) :
    c.ReceiveFrom W ctx (fuel + 1) i s = c.ReceiveFrom W ctx fuel (i + 1) s2 := by
  simp [Client.ReceiveFrom, h, hws, hread, not_lt.mpr hbuf, herr, hlen]

theorem receiveFrom_data {σ : Type} (W : WebSocket σ) (c : Client) (ctx : Context)
    (fuel i : Nat) (s s2 : σ) (ws : ConnRef) (out : ReadOutcome) (h : ctx i = false)
    (hws : c.ws = some ws) (hbuf : 0 ≤ c.bufferSize)
    (hread : W.Read ws c.bufferSize.toNat s = some (out, s2)) (herr : out.err = none)
    (hpos : 0 < out.data.length) (hfit : out.data.length ≤ c.bufferSize.toNat) :
    c.ReceiveFrom W ctx (fuel + 1) i s
      = { c.ReceiveFrom W ctx fuel (i + 1) s2 with
          forwarded := out.data :: (c.ReceiveFrom W ctx fuel (i + 1) s2).forwarded } := by
  simp [Client.ReceiveFrom, h, hws, hread, not_lt.mpr hbuf, herr, hpos, not_lt.mpr hfit]

/-- No message that `Receive` forwards is empty or longer than the buffer. -/
theorem forwarded_bounds {σ : Type} (W : WebSocket σ) (c : Client) (ctx : Context)
    (fuel i : Nat) (s : σ) :
    ∀ m ∈ (c.ReceiveFrom W ctx fuel i s).forwarded,
      0 < m.length ∧ m.length ≤ c.bufferSize.toNat := by
  induction fuel generalizing i s with
  | zero => simp [Client.ReceiveFrom]
  | succ fuel ih =>
    unfold Client.ReceiveFrom
    split
    · simp
    split
    · simp
    split
    · simp
    split
    · simp
    split
    · simp
    split
    · split
      · simp
      · rename_i hpos hfit
        intro m hm
        simp only [List.mem_cons] at hm
        rcases hm with rfl | hm
        · exact ⟨hpos, not_lt.mp hfit⟩
        · exact ih _ _ m hm
    · exact ih _ _

/-! ## Receive on a script of read outcomes -/

theorem scripted_read_nil (ws : ConnRef) (n : Nat) : scripted.Read ws n [] = none := rfl

theorem scripted_read_cons (ws : ConnRef) (n : Nat) (o : ReadOutcome)
    (rest : List ReadOutcome) : scripted.Read ws n (o :: rest) = some (o, rest) := rfl

/-- The run of the loop on a script, in closed form. -/
theorem receiveFrom_scripted (c : Client) (ws : ConnRef) (ctx : Context)
    (hws : c.ws = some ws) (hbuf : 0 ≤ c.bufferSize) (hctx : ∀ k, ctx k = false)
    (script : List ReadOutcome)
    (hfit : ∀ o ∈ script, o.err = none → o.data.length ≤ c.bufferSize.toNat)
    (fuel i : Nat) (hfuel : script.length < fuel) :
    c.ReceiveFrom scripted ctx fuel i script
      = ⟨messages script, i + (successful script).length + 1, scriptExit script⟩ := by
  induction script generalizing fuel i with
  | nil =>
    obtain ⟨fuel, rfl⟩ : ∃ k, fuel = k + 1 := ⟨fuel - 1, by simp at hfuel; omega⟩
    rw [receiveFrom_blocked scripted c ctx fuel i [] ws (hctx i) hws hbuf
      (scripted_read_nil ws _)]
    simp [messages, successful, scriptExit]
  | cons o rest ih =>
    obtain ⟨fuel, rfl⟩ : ∃ k, fuel = k + 1 := ⟨fuel - 1, by simp at hfuel; omega⟩
    have hfuel2 : rest.length < fuel := by simp at hfuel; omega
    have hfit2 : ∀ o ∈ rest, o.err = none → o.data.length ≤ c.bufferSize.toNat :=
      fun o ho => hfit o (List.mem_cons_of_mem _ ho)
    have hrec := ih hfit2 fuel (i + 1) hfuel2
    cases herr : o.err with
    | some e =>
      rw [receiveFrom_error scripted c ctx fuel i (o :: rest) rest ws o (hctx i) hws hbuf
        (scripted_read_cons ws _ o rest) (by simp [herr])]
      simp [messages, successful, scriptExit, List.takeWhile_cons, herr]
    | none =>
      by_cases hlen : o.data.length = 0
      · rw [receiveFrom_empty scripted c ctx fuel i (o :: rest) rest ws o (hctx i) hws hbuf
          (scripted_read_cons ws _ o rest) herr hlen, hrec]
        simp [messages, successful, scriptExit, List.takeWhile_cons, herr, hlen,
          List.filter_cons]
        omega
      · have hpos : 0 < o.data.length := Nat.pos_of_ne_zero hlen
        rw [receiveFrom_data scripted c ctx fuel i (o :: rest) rest ws o (hctx i) hws hbuf
          (scripted_read_cons ws _ o rest) herr hpos (hfit o (List.mem_cons_self _ _) herr),
          hrec]
        simp [messages, successful, scriptExit, List.takeWhile_cons, herr, hpos,
          List.filter_cons]
        omega

theorem padded_fit (n : Nat) {s t : List ReadOutcome} (h : Padded s t)
    (hfit : ∀ o ∈ s, o.err = none → o.data.length ≤ n) :
    ∀ o ∈ t, o.err = none → o.data.length ≤ n := by
  induction h with
  | nil => simp
  | keep o _ ih =>
    intro x hx
    rcases List.mem_cons.mp hx with rfl | hx
    · exact hfit _ (List.mem_cons_self _ _)
    · exact ih (fun y hy => hfit y (List.mem_cons_of_mem _ hy)) x hx
  | pad _ ih =>
    intro x hx
    rcases List.mem_cons.mp hx with rfl | hx
    · intro _
      simp [emptyRead]
    · exact ih hfit x hx

theorem padded_messages {s t : List ReadOutcome} (h : Padded s t) :
    messages t = messages s ∧ scriptExit t = scriptExit s := by
  induction h with
  | nil => exact ⟨rfl, rfl⟩
  | @keep o s t _ ih =>
    cases herr : o.err with
    | some e => simp [messages, successful, scriptExit, List.takeWhile_cons, herr]
    | none =>
      have h1 := ih.1
      have h2 := ih.2
      simp only [messages, successful, scriptExit] at h1 h2 ⊢
      simp only [List.takeWhile_cons, herr, Option.isNone_none, if_true, List.map_cons,
        List.filter_cons, List.length_cons, Nat.add_lt_add_iff_right]
      exact ⟨by rw [h1], h2⟩
  | @pad s t _ ih =>
    have h1 := ih.1
    have h2 := ih.2
    simp only [messages, successful, scriptExit] at h1 h2 ⊢
    simp only [List.takeWhile_cons, emptyRead, Option.isNone_none, if_true, List.map_cons,
      List.filter_cons, List.length_cons, Nat.add_lt_add_iff_right, List.length_nil,
      Nat.lt_irrefl, decide_False]
    exact ⟨h1, h2⟩

/-- C9: with the context never cancelled, on every sequence of read outcomes
(each fitting the buffer) `Receive` forwards exactly the contents of the
non-empty reads that precede the first failing read, in read order, one message
per read; it performs those reads and one more, the failing one, at which it
returns without any error value, or one that never returns when no read fails. -/
theorem receive_stops_at_first_error (c : Client) (ws : ConnRef) (ctx : Context)
    (script : List ReadOutcome) (fuel : Nat)
    (hws : c.ws = some ws) (hbuf : 0 ≤ c.bufferSize) (hctx : ∀ k, ctx k = false)
    (hfit : ∀ o ∈ script, o.err = none → o.data.length ≤ c.bufferSize.toNat)
    (hfuel : script.length < fuel) :
    c.Receive scripted ctx fuel script
      = ⟨((script.takeWhile fun o => o.err.isNone).map fun o => o.data).filter
            fun d => decide (0 < d.length),
          (script.takeWhile fun o => o.err.isNone).length + 1,
          if (script.takeWhile fun o => o.err.isNone).length < script.length
            then .returned else .blocked⟩ := by
  have h := receiveFrom_scripted c ws ctx hws hbuf hctx script hfit fuel 0 hfuel
  simpa [Client.Receive, messages, successful, scriptExit] using h

theorem receive_stops_at_first_error_witness :
    (openedClient [] 1).ws = some 1
    ∧ (∀ o ∈ sampleScript, o.err = none →
        o.data.length ≤ (openedClient [] 1).bufferSize.toNat)
    ∧ (openedClient [] 1).Receive scripted background 6 sampleScript
        = ⟨[stringBytes Connected, [1, 2]], 4, .returned⟩ := by
  refine ⟨rfl, by decide, ?_⟩
  rw [receive_stops_at_first_error (openedClient [] 1) 1 background sampleScript 6 rfl
    (by decide) (fun _ => rfl) (by decide) (by decide)]
  decide

/-- C8: with the context never cancelled, inserting zero-byte error-free reads
anywhere in a sequence of read outcomes changes neither the messages forwarded
nor the way the run ends; no run ever forwards an empty message; and after a
zero-byte error-free read the loop goes on with the next read. -/
theorem zero_byte_reads_are_noops {σ : Type} (W : WebSocket σ) (c0 : Client) (ctx0 : Context)
    (fuel0 : Nat) (s0 : σ) (c : Client) (ws : ConnRef) (ctx : Context)
    (s t rest : List ReadOutcome) (fuel fuel2 k i : Nat)
    (hws : c.ws = some ws) (hbuf : 0 ≤ c.bufferSize) (hctx : ∀ k, ctx k = false)
    (hpad : Padded s t)
    (hfit : ∀ o ∈ s, o.err = none → o.data.length ≤ c.bufferSize.toNat)
    (hfuel : s.length < fuel) (hfuel2 : t.length < fuel2) :
    (c.Receive scripted ctx fuel2 t).forwarded = (c.Receive scripted ctx fuel s).forwarded
    ∧ (c.Receive scripted ctx fuel2 t).exit = (c.Receive scripted ctx fuel s).exit
    ∧ [] ∉ (c0.Receive W ctx0 fuel0 s0).forwarded
    ∧ c.ReceiveFrom scripted ctx (k + 1) i (emptyRead :: rest)
        = c.ReceiveFrom scripted ctx k (i + 1) rest := by
  have h1 := receiveFrom_scripted c ws ctx hws hbuf hctx s hfit fuel 0 hfuel
  have h2 := receiveFrom_scripted c ws ctx hws hbuf hctx t
    (padded_fit _ hpad hfit) fuel2 0 hfuel2
  have hp := padded_messages hpad
  refine ⟨?_, ?_, ?_, ?_⟩
  · simp only [Client.Receive, h1, h2, hp.1]
  · simp only [Client.Receive, h1, h2, hp.2]
  · intro hmem
    have := (forwarded_bounds W c0 ctx0 fuel0 0 s0 [] hmem).1
    simp at this
  · exact receiveFrom_empty scripted c ctx k i (emptyRead :: rest) rest ws emptyRead (hctx i)
      hws hbuf (scripted_read_cons ws _ emptyRead rest) rfl rfl

theorem zero_byte_reads_are_noops_witness :
    Padded [⟨[1, 2], none⟩, ⟨[3], none⟩, ⟨[], some (.websocket "EOF")⟩]
      [emptyRead, ⟨[1, 2], none⟩, emptyRead, emptyRead, ⟨[3], none⟩,
        ⟨[], some (.websocket "EOF")⟩]
    ∧ ((openedClient [] 1).Receive scripted background 7
          [emptyRead, ⟨[1, 2], none⟩, emptyRead, emptyRead, ⟨[3], none⟩,
            ⟨[], some (.websocket "EOF")⟩]).forwarded
        = ((openedClient [] 1).Receive scripted background 4
          [⟨[1, 2], none⟩, ⟨[3], none⟩, ⟨[], some (.websocket "EOF")⟩]).forwarded
    ∧ ((openedClient [] 1).Receive scripted background 4
          [⟨[1, 2], none⟩, ⟨[3], none⟩, ⟨[], some (.websocket "EOF")⟩]).forwarded
        = [[1, 2], [3]] := by
  have hpad : Padded [⟨[1, 2], none⟩, ⟨[3], none⟩, ⟨[], some (.websocket "EOF")⟩]
      [emptyRead, ⟨[1, 2], none⟩, emptyRead, emptyRead, ⟨[3], none⟩,
        ⟨[], some (.websocket "EOF")⟩] :=
    .pad (.keep _ (.pad (.pad (.keep _ (.keep _ .nil)))))
  exact ⟨hpad,
    (zero_byte_reads_are_noops scripted (openedClient [] 1) background 0 []
      (openedClient [] 1) 1 background _ _ [] 4 7 0 0 rfl (by decide) (fun _ => rfl) hpad
      (by decide) (by decide) (by decide)).1,
    by decide⟩

/-- C10: an iteration that begins with the context done returns at once, for
every client and connection state, with no read and no message; so does
`Receive` called with a context that is already cancelled.  A read that was
started before the cancellation is completed, and the bytes it returned are
forwarded before the next iteration returns. -/
theorem cancellation_checked_before_read {σ : Type} (W : WebSocket σ) (c0 c : Client)
    (ctx0 ctx : Context) (fuel i j : Nat) (s0 s s1 s2 : σ) (ws : ConnRef) (out : ReadOutcome)
    (h0 : ctx0 0 = true) (hj : ctx j = true)
    (hi : ctx i = false) (hnext : ctx (i + 1) = true)
    (hws : c.ws = some ws) (hbuf : 0 ≤ c.bufferSize)
    (hread : W.Read ws c.bufferSize.toNat s1 = some (out, s2)) (herr : out.err = none)
    (hpos : 0 < out.data.length) (hfit : out.data.length ≤ c.bufferSize.toNat) :
    c0.Receive W ctx0 (fuel + 1) s0 = ⟨[], 0, .returned⟩
    ∧ c0.ReceiveFrom W ctx (fuel + 1) j s = ⟨[], j, .returned⟩
    ∧ c.ReceiveFrom W ctx (fuel + 2) i s1 = ⟨[out.data], i + 1, .returned⟩ := by
  refine ⟨receiveFrom_done W c0 ctx0 fuel 0 s0 h0, receiveFrom_done W c0 ctx fuel j s hj, ?_⟩
  rw [receiveFrom_data W c ctx (fuel + 1) i s1 s2 ws out hi hws hbuf hread herr hpos hfit,
    receiveFrom_done W c ctx fuel (i + 1) s2 hnext]

theorem cancellation_checked_before_read_witness :
    (NewClient []).Receive scripted (fun _ => true) 1 sampleScript = ⟨[], 0, .returned⟩
    ∧ (NewClient []).ReceiveFrom scripted (fun k => decide (1 ≤ k)) 1 1 sampleScript
        = ⟨[], 1, .returned⟩
    ∧ (openedClient [] 1).ReceiveFrom scripted (fun k => decide (1 ≤ k)) 2 0 sampleScript
        = ⟨[stringBytes Connected], 1, .returned⟩ :=
  cancellation_checked_before_read scripted (NewClient []) (openedClient [] 1)
    (fun _ => true) (fun k => decide (1 ≤ k)) 0 0 1 sampleScript sampleScript sampleScript
    (sampleScript.drop 1) 1 ⟨stringBytes Connected, none⟩ rfl (by decide) (by decide)
    (by decide) rfl (by decide) rfl rfl (by decide) (by decide)

/-- C4 (what the code does): after `Open` has succeeded and `Close` has
succeeded the connection reference is nil, and a further `Receive` with a
context that is not cancelled panics on it before any read, whatever the
options and the connection. -/
theorem receive_after_close_faults {σ : Type} (W : WebSocket σ) (l : List Setting)
    (conn : ConnRef) (fuel : Nat) (s : σ) :
    ((NewClient (l.map Setting.toOption)).Open configOK (dialOK conn) background).1 = none
    ∧ (openedClient (l.map Setting.toOption) conn).ws = some conn
    ∧ (openedClient (l.map Setting.toOption) conn).Close closeOK
        = some (none, { openedClient (l.map Setting.toOption) conn with ws := none })
    ∧ ({ openedClient (l.map Setting.toOption) conn with ws := none } : Client).Receive W
        background (fuel + 1) s = ⟨[], 0, .fault⟩ := by
  refine ⟨rfl, rfl, rfl, ?_⟩
  unfold Client.Receive Client.ReceiveFrom
  simp [background]

/-! ## Receive on a frame connection -/

theorem frames_read_nil (n : Nat) (cl : Bool) :
    Frames.read n cl [] = if cl then some (⟨[], some (.websocket "EOF")⟩, ⟨[], cl⟩) else none :=
  rfl

theorem frames_read_skip (n : Nat) (cl : Bool) (rest : List Bytes) :
    Frames.read n cl ([] :: rest) = Frames.read n cl rest := by
  simp [Frames.read]

theorem frames_read_cons (n : Nat) (cl : Bool) (b : Byte) (f rest : List _) :
    Frames.read n cl ((b :: f) :: rest)
      = some (⟨(b :: f).take n, none⟩, ⟨(b :: f).drop n :: rest, cl⟩) := by
  simp [Frames.read]

theorem receiveFrom_framed_skip (c : Client) (ctx : Context) (fuel i : Nat)
    (rest : List Bytes) (cl : Bool) :
    c.ReceiveFrom framed ctx fuel i ⟨[] :: rest, cl⟩
      = c.ReceiveFrom framed ctx fuel i ⟨rest, cl⟩ := by
  cases fuel with
  | zero => rfl
  | succ k => simp only [Client.ReceiveFrom, framed, frames_read_skip]

theorem receiveFrom_framed_nil (c : Client) (ws : ConnRef) (ctx : Context)
    (hws : c.ws = some ws) (hbuf : 0 ≤ c.bufferSize) (fuel i : Nat) (hi : ctx i = false)
    (cl : Bool) :
    c.ReceiveFrom framed ctx (fuel + 1) i ⟨[], cl⟩ = ⟨[], i + 1, framesExit cl⟩ := by
  cases cl with
  | true =>
    exact receiveFrom_error framed c ctx fuel i _ ⟨[], true⟩ ws
      ⟨[], some (.websocket "EOF")⟩ hi hws hbuf rfl rfl
  | false => exact receiveFrom_blocked framed c ctx fuel i _ ws hi hws hbuf rfl

theorem weight_cons (f : Bytes) (rest : List Bytes) :
    weight (f :: rest) = f.length + 1 + weight rest := by
  simp [weight]

/-- With a buffer of at least one byte the run drains every pending frame: the
messages concatenate to the frames and the run ends when the frames do. -/
theorem receiveFrom_framed (c : Client) (ws : ConnRef) (ctx : Context)
    (hws : c.ws = some ws) (hbuf : 1 ≤ c.bufferSize) (hctx : ∀ k, ctx k = false) (cl : Bool)
    (N : Nat) :
    ∀ (pending : List Bytes) (fuel i : Nat), weight pending ≤ N → N < fuel →
      (c.ReceiveFrom framed ctx fuel i ⟨pending, cl⟩).forwarded.flatten = pending.flatten
      ∧ (c.ReceiveFrom framed ctx fuel i ⟨pending, cl⟩).exit = framesExit cl := by
  have hbuf0 : 0 ≤ c.bufferSize := by omega
  have hn : 1 ≤ c.bufferSize.toNat := by omega
  induction N with
  | zero =>
    intro pending fuel i hw hfuel
    obtain ⟨fuel, rfl⟩ : ∃ k, fuel = k + 1 := ⟨fuel - 1, by omega⟩
    cases pending with
    | nil =>
      rw [receiveFrom_framed_nil c ws ctx hws hbuf0 fuel i (hctx i) cl]
      simp
    | cons f rest =>
      rw [weight_cons] at hw
      omega
  | succ N ih =>
    intro pending fuel i hw hfuel
    obtain ⟨fuel, rfl⟩ : ∃ k, fuel = k + 1 := ⟨fuel - 1, by omega⟩
    cases pending with
    | nil =>
      rw [receiveFrom_framed_nil c ws ctx hws hbuf0 fuel i (hctx i) cl]
      simp
    | cons f rest =>
      rw [weight_cons] at hw
      cases f with
      | nil =>
        rw [receiveFrom_framed_skip]
        have := ih rest (fuel + 1) i (by simp at hw; omega) (by omega)
        simpa using this
      | cons b f =>
        have hlen : ((b :: f).take c.bufferSize.toNat).length
            = min c.bufferSize.toNat (f.length + 1) := by simp
        have hpos : 0 < ((b :: f).take c.bufferSize.toNat).length := by
          rw [hlen]; omega
        have hle : ((b :: f).take c.bufferSize.toNat).length ≤ c.bufferSize.toNat := by
          rw [hlen]; omega
        rw [receiveFrom_data framed c ctx fuel i ⟨(b :: f) :: rest, cl⟩
          ⟨(b :: f).drop c.bufferSize.toNat :: rest, cl⟩ ws
          ⟨(b :: f).take c.bufferSize.toNat, none⟩ (hctx i) hws hbuf0
          (frames_read_cons _ cl b f rest) rfl hpos hle]
        have hw2 : weight ((b :: f).drop c.bufferSize.toNat :: rest) ≤ N := by
          rw [weight_cons, List.length_drop]
          simp only [List.length_cons] at hw ⊢
          omega
        have := ih ((b :: f).drop c.bufferSize.toNat :: rest) fuel (i + 1) hw2 (by omega)
        refine ⟨?_, this.2⟩
        simp only [List.flatten_cons, this.1]
        rw [← List.append_assoc, List.take_append_drop]

/-- Frames that fit the buffer are forwarded one message each, unchanged. -/
theorem receiveFrom_whole_frames (c : Client) (ws : ConnRef) (ctx : Context)
    (hws : c.ws = some ws) (hbuf : 0 ≤ c.bufferSize) (hctx : ∀ k, ctx k = false) (cl : Bool)
    (frames : List Bytes)
    (hfit : ∀ f ∈ frames, 0 < f.length ∧ f.length ≤ c.bufferSize.toNat)
    (fuel i : Nat) (hfuel : frames.length < fuel) :
    c.ReceiveFrom framed ctx fuel i ⟨frames, cl⟩
      = ⟨frames, i + frames.length + 1, framesExit cl⟩ := by
  induction frames generalizing fuel i with
  | nil =>
    obtain ⟨fuel, rfl⟩ : ∃ k, fuel = k + 1 := ⟨fuel - 1, by simp at hfuel; omega⟩
    rw [receiveFrom_framed_nil c ws ctx hws hbuf fuel i (hctx i) cl]
    rfl
  | cons f rest ih =>
    obtain ⟨fuel, rfl⟩ : ∃ k, fuel = k + 1 := ⟨fuel - 1, by simp at hfuel; omega⟩
    have hf := hfit f (List.mem_cons_self _ _)
    have hrec := ih (fun g hg => hfit g (List.mem_cons_of_mem _ hg)) fuel (i + 1)
      (by simp at hfuel; omega)
    cases f with
    | nil => simp at hf
    | cons b f =>
      have htake : (b :: f).take c.bufferSize.toNat = b :: f := List.take_of_length_le hf.2
      have hdrop : (b :: f).drop c.bufferSize.toNat = [] := List.drop_of_length_le hf.2
      have hread : framed.Read ws c.bufferSize.toNat ⟨(b :: f) :: rest, cl⟩
          = some (⟨b :: f, none⟩, ⟨[] :: rest, cl⟩) := by
        show Frames.read _ cl ((b :: f) :: rest) = _
        rw [frames_read_cons, htake, hdrop]
      rw [receiveFrom_data framed c ctx fuel i ⟨(b :: f) :: rest, cl⟩ ⟨[] :: rest, cl⟩ ws
        ⟨b :: f, none⟩ (hctx i) hws hbuf hread rfl hf.1 hf.2, receiveFrom_framed_skip, hrec]
      simp
      omega

/-- With a buffer of zero bytes every read returns nothing and leaves the frame
where it is: the loop forwards no message and never ends. -/
theorem receiveFrom_zero_buffer (c : Client) (ws : ConnRef) (ctx : Context)
    (hws : c.ws = some ws) (hbuf : c.bufferSize = 0) (hctx : ∀ k, ctx k = false) (cl : Bool)
    (b : Byte) (f : Bytes) (rest : List Bytes) (fuel i : Nat) :
    c.ReceiveFrom framed ctx fuel i ⟨(b :: f) :: rest, cl⟩ = ⟨[], i + fuel, .running⟩ := by
  induction fuel generalizing i with
  | zero => rfl
  | succ fuel ih =>
    have hread : framed.Read ws c.bufferSize.toNat ⟨(b :: f) :: rest, cl⟩
        = some (⟨[], none⟩, ⟨(b :: f) :: rest, cl⟩) := by
      show Frames.read _ cl ((b :: f) :: rest) = _
      rw [frames_read_cons, hbuf]
      rfl
    rw [receiveFrom_empty framed c ctx fuel i _ _ ws _ (hctx i) hws (by omega) hread rfl rfl,
      ih (i + 1)]
    simp
    omega

theorem hexEncode_length (src : Bytes) : (hexEncode src).length = 2 * src.length := by
  induction src with
  | nil => rfl
  | cons v src ih =>
    simp only [hexEncode, List.flatMap_cons, List.length_append, List.length_cons,
      List.length_nil] at ih ⊢
    omega

theorem uuid_string_length (uuid : UUID) : uuid.String.length = 36 := by
  have h := uuid.property
  simp only [UUID.String, List.length_append, hexEncode_length, List.length_take,
    List.length_drop, List.length_cons, List.length_nil, h]
  rfl

/-- C1 (as amended): for every buffer size `n` of at least one byte and every
pushed frame with more bytes than `n`, read `min n remaining` bytes at a time,
`Receive` forwards more than one message, their concatenation in forwarding
order is the frame byte for byte, each message has at most `n` bytes, and the
run ends once the frame is drained. -/
theorem receive_splits_losslessly (c : Client) (ws : ConnRef) (ctx : Context) (n : Nat)
    (f : Bytes) (cl : Bool) (fuel : Nat)
    (hws : c.ws = some ws) (hn : 1 ≤ n) (hbuf : c.bufferSize = n)
    (hctx : ∀ k, ctx k = false) (hf : n < f.length) (hfuel : f.length + 1 < fuel) :
    1 < (c.Receive framed ctx fuel ⟨[f], cl⟩).forwarded.length
    ∧ (c.Receive framed ctx fuel ⟨[f], cl⟩).forwarded.flatten = f
    ∧ (∀ m ∈ (c.Receive framed ctx fuel ⟨[f], cl⟩).forwarded, m.length ≤ n)
    ∧ (c.Receive framed ctx fuel ⟨[f], cl⟩).exit = framesExit cl := by
  have hmain := receiveFrom_framed c ws ctx hws (by omega) hctx cl (f.length + 1) [f] fuel 0
    (by simp [weight]) hfuel
  have hbound := forwarded_bounds framed c ctx fuel 0 ⟨[f], cl⟩
  have hn2 : c.bufferSize.toNat = n := by omega
  have hcat : (c.Receive framed ctx fuel ⟨[f], cl⟩).forwarded.flatten = f := by
    simpa [Client.Receive] using hmain.1
  have hsmall : ∀ m ∈ (c.Receive framed ctx fuel ⟨[f], cl⟩).forwarded, m.length ≤ n := by
    intro m hm
    have := (hbound m hm).2
    omega
  refine ⟨?_, hcat, hsmall, hmain.2⟩
  generalize (c.Receive framed ctx fuel ⟨[f], cl⟩).forwarded = msgs at hcat hsmall
  match msgs, hcat, hsmall with
  | [], hcat, _ =>
    subst hcat
    simp at hf
  | [m], hcat, hsmall =>
    have := hsmall m (List.mem_singleton_self m)
    simp at hcat
    subst hcat
    omega
  | _ :: _ :: _, _, _ => simp

theorem receive_splits_losslessly_witness :
    (openedClient [WithBufferSize 4] 1).ws = some 1
    ∧ (openedClient [WithBufferSize 4] 1).bufferSize = 4
    ∧ (openedClient [WithBufferSize 4] 1).Receive framed background 11
        ⟨[stringBytes Connected], true⟩
        = ⟨[[99, 111, 110, 110], [101, 99, 116, 101], [100]], 4, .returned⟩
    ∧ ((openedClient [WithBufferSize 4] 1).Receive framed background 11
        ⟨[stringBytes Connected], true⟩).forwarded.flatten = stringBytes Connected := by
  refine ⟨rfl, rfl, by decide, ?_⟩
  exact (receive_splits_losslessly (openedClient [WithBufferSize 4] 1) 1 background 4
    (stringBytes Connected) true 11 rfl (by decide) rfl (fun _ => rfl) (by decide)
    (by decide)).2.1

/-- C1 (as stated) fails for the buffer size 0: the pushed frame of one byte
has more bytes than the buffer, every read returns `min 0 1 = 0` bytes, and no
run of `Receive`, however long, forwards more than one message. -/
theorem receive_zero_buffer_forwards_nothing :
    ¬ ∃ fuel : Nat,
      1 < ((openedClient [WithBufferSize 0] 1).Receive framed background fuel
            ⟨[[97]], true⟩).forwarded.length := by
  rintro ⟨fuel, h⟩
  rw [Client.Receive, receiveFrom_zero_buffer (openedClient [WithBufferSize 0] 1) 1 background
    rfl rfl (fun _ => rfl) true 97 [] [] fuel 0] at h
  simp at h

/-- C2 (as amended): the buffer of the default configuration has 36 bytes, the
token "connected" has 9 and the string form of every UUID has 36; so, on a
connection where each read returns the next `min n remaining` bytes of the
current frame, for a server that pushes "connected" and then the string form of
a UUID, `Receive` under the default configuration forwards exactly these two
messages in this order; and on such a connection, for every client, every frame
of at least one byte and at most the buffer size is forwarded as exactly one
message equal to the frame. -/
theorem protocol_frames_delivered_whole (uuid : UUID) (conn : ConnRef) (c : Client)
    (ws : ConnRef) (ctx : Context) (f : Bytes) (cl : Bool) (fuel : Nat)
    (hws : c.ws = some ws) (hctx : ∀ k, ctx k = false)
    (h1 : 1 ≤ f.length) (h2 : (f.length : Int) ≤ c.bufferSize) (hfuel : 2 < fuel) :
    (NewClient []).bufferSize = 36
    ∧ (stringBytes Connected).length = 9
    ∧ uuid.String.length = 36
    ∧ (openedClient [] conn).Receive framed background fuel
        ⟨[stringBytes Connected, uuid.String], cl⟩
        = ⟨[stringBytes Connected, uuid.String], 3, framesExit cl⟩
    ∧ c.Receive framed ctx fuel ⟨[f], cl⟩ = ⟨[f], 2, framesExit cl⟩ := by
  have hu := uuid_string_length uuid
  refine ⟨rfl, by decide, hu, ?_, ?_⟩
  · have hdef : (openedClient [] conn).bufferSize.toNat = 36 := rfl
    exact receiveFrom_whole_frames (openedClient [] conn) conn background rfl
      (show (0 : Int) ≤ 36 by decide)
      (fun _ => rfl) cl _ (by
        intro g hg
        simp only [List.mem_cons, List.mem_singleton, List.not_mem_nil, or_false] at hg
        rcases hg with rfl | rfl
        · rw [hdef]; decide
        · rw [hdef, hu]; decide) fuel 0 (by simpa using hfuel)
  · exact receiveFrom_whole_frames c ws ctx hws (by omega) hctx cl [f]
      (by
        intro g hg
        simp only [List.mem_singleton] at hg
        subst hg
        exact ⟨h1, by omega⟩) fuel 0 (by simp; omega)

theorem protocol_frames_delivered_whole_witness :
    (openedClient [] 1).Receive framed background 3
        ⟨[stringBytes Connected, UUID.zero.String], false⟩
        = ⟨[stringBytes Connected, UUID.zero.String], 3, .blocked⟩
    ∧ (openedClient [] 1).Receive framed background 3 ⟨[[104, 105]], true⟩
        = ⟨[[104, 105]], 2, .returned⟩ :=
  have h := protocol_frames_delivered_whole UUID.zero 1 (openedClient [] 1) 1 background
    [104, 105] true 3 rfl (fun _ => rfl) (by decide) (by decide) (by decide)
  ⟨(protocol_frames_delivered_whole UUID.zero 1 (openedClient [] 1) 1 background
    [104, 105] false 3 rfl (fun _ => rfl) (by decide) (by decide) (by decide)).2.2.2.1,
    h.2.2.2.2⟩

/-- C2 (as stated) fails when a frame reaches the reader in pieces: the server
pushes "connected" and then a UUID, the nine bytes of "connected" arrive as four
bytes and five bytes, each read returns what has arrived, and `Receive` under
the default configuration forwards three messages, the first being "conn"; no
run forwards the two frames as two messages. -/
theorem connected_arrives_in_pieces :
    [99, 111, 110, 110] ++ [101, 99, 116, 101, 100] = stringBytes Connected
    ∧ (openedClient [] 1).Receive segmented background 5
        ⟨[[[99, 111, 110, 110], [101, 99, 116, 101, 100]], [UUID.zero.String]], true⟩
        = ⟨[[99, 111, 110, 110], [101, 99, 116, 101, 100], UUID.zero.String], 4, .returned⟩
    ∧ ¬ ∃ fuel : Nat,
        ((openedClient [] 1).Receive segmented background fuel
          ⟨[[[99, 111, 110, 110], [101, 99, 116, 101, 100]], [UUID.zero.String]],
            true⟩).forwarded
          = [stringBytes Connected, UUID.zero.String] := by
  refine ⟨by decide, by decide, ?_⟩
  rintro ⟨fuel, h⟩
  cases fuel with
  | zero => exact absurd h (by decide)
  | succ k =>
    rw [Client.Receive, receiveFrom_data segmented (openedClient [] 1) background k 0
      ⟨[[[99, 111, 110, 110], [101, 99, 116, 101, 100]], [UUID.zero.String]], true⟩
      ⟨[[[101, 99, 116, 101, 100]], [UUID.zero.String]], true⟩ 1
      ⟨[99, 111, 110, 110], none⟩ rfl rfl (by decide) rfl rfl (by decide) (by decide)] at h
    simp only [List.cons.injEq] at h
    exact absurd h.1 (by decide)

end Joern
